import Mathlib

/-!
Verification of the prom-autoexporter orchestration core (docker backend and
event-listener helpers) against its natural-language specification.

The Go source is shallowly embedded: the docker client is modelled as a record
of response functions (one per runtime call the core issues), each embedded
operation additionally returns the ordered trace of runtime calls it issued,
and Go contexts are modelled by the index of the cancellation check at which
ctx.Done() first fires (none = never cancelled).
-/

namespace PromAuto

/-- Error messages; Go errors are modelled by their message string
(errors.WithStack keeps the message unchanged). -/
abbrev Err := String

/-- Go map[string]string access m[k]: value of the first binding of key k,
or the empty string when the key is absent. -/
def labelValue (ls : List (String × String)) (k : String) : String :=
  match ls.find? (fun p => p.1 == k) with
  | some p => p.2
  | none => ""

/-- Go comma-ok form: whether key k is present in the label map. -/
def hasLabelKey (ls : List (String × String)) (k : String) : Bool :=
  (ls.find? (fun p => p.1 == k)).isSome

/-- Helper for stringsContains: does needle occur as a contiguous sublist of hay. -/
def listContainsSub (hay needle : List Char) : Bool :=
  match hay with
  | [] => needle.isPrefixOf ([] : List Char)
  | _ :: rest => needle.isPrefixOf hay || listContainsSub rest needle

/-- Go strings.Contains(s, substr): substring containment. -/
def stringsContains (s substr : String) : Bool :=
  listContainsSub s.toList substr.toList

/-- Label constants from backend.go. -/
def LABEL_EXPORTER : String := "autoexporter.exporter"

def LABEL_EXPORTED_ID : String := "autoexporter.exported.id"

def LABEL_EXPORTED_NAME : String := "autoexporter.exported.name"

/-- models.TaskToExport: the monitored container a sidecar is resolved for. -/
structure TaskToExport where
  id : String
  name : String
  labels : List (String × String)
  deriving Repr, DecidableEq

/-- models.Exporter, restricted to the fields the docker backend reads. -/
structure Exporter where
  name : String
  exporterType : String
  image : String
  cmd : List String
  envVars : List String
  exportedTask : TaskToExport
  deriving Repr, DecidableEq

/-- container.Config as filled by createContainer. -/
structure ContainerConfig where
  user : String
  cmd : List String
  image : String
  env : List String
  labels : List (String × String)
  deriving Repr, DecidableEq

/-- container.RestartPolicy. -/
structure RestartPolicy where
  name : String
  maximumRetryCount : Nat
  deriving Repr, DecidableEq

/-- container.HostConfig as filled by createContainer. -/
structure HostConfig where
  networkMode : String
  restartPolicy : RestartPolicy
  deriving Repr, DecidableEq

/-- One runtime call issued by the startup pipeline, with its arguments. -/
inductive Call
  | imagePull (image : String)
  | containerCreate (config : ContainerConfig) (hostConfig : HostConfig) (name : String)
  | networkConnect (network : String) (containerID : String)
  | containerStart (containerID : String)
  deriving Repr, DecidableEq

/-- Responses of the docker client for the calls RunExporter issues.
ImagePull folds the pull request and the wait-for-completion read into one
result; ContainerCreate returns the new container id on success. -/
structure RunClient where
  imagePull : String → Option Err
  containerCreate : ContainerConfig → HostConfig → String → Except Err String
  networkConnect : String → String → Option Err
  containerStart : String → Option Err

/-- Result of RunExporter: the returned error (none = nil) and the ordered
trace of runtime calls issued. -/
structure RunResult where
  err : Option Err
  calls : List Call
  deriving Repr, DecidableEq

/-- Steps of the startup state machine (backend.go constants stepPullImage..). -/
inductive Step
  | pullImage
  | create
  | connect
  | start
  | finished
  deriving Repr, DecidableEq

/-- Number of loop iterations still ahead of a step; the loop measure. -/
def stepRank : Step → Nat
  | .pullImage => 4
  | .create => 3
  | .connect => 2
  | .start => 1
  | .finished => 0

/-- DockerBackend.pullImage: one ImagePull call (success includes the
completed read of the pull stream). -/
def pullImage (cli : RunClient) (image : String) : Option Err :=
  cli.imagePull image

/-- Container config built by DockerBackend.createContainer. -/
def mkContainerConfig (exporter : Exporter) : ContainerConfig :=
  { user := "1000"
    cmd := exporter.cmd
    image := exporter.image
    env := exporter.envVars
    labels := [(LABEL_EXPORTED_ID, exporter.exportedTask.id),
               (LABEL_EXPORTED_NAME, exporter.exportedTask.name)] }

/-- Host config built by DockerBackend.createContainer: shares the monitored
container network namespace and restarts on failure up to 10 times. -/
def mkHostConfig (exporter : Exporter) : HostConfig :=
  { networkMode := "container:" ++ exporter.exportedTask.id
    restartPolicy := { name := "on-failure", maximumRetryCount := 10 } }

/-- DockerBackend.createContainer: issues ContainerCreate and returns the new
container id. -/
def createContainer (cli : RunClient) (exporter : Exporter) : Except Err String :=
  cli.containerCreate (mkContainerConfig exporter) (mkHostConfig exporter) exporter.name

/-- DockerBackend.connectToNetwork: a NetworkConnect failure whose message
contains "endpoint with name" is swallowed (treated as success). -/
def connectToNetwork (cli : RunClient) (promNetwork : String) (cid : String) : Option Err :=
  match cli.networkConnect promNetwork cid with
  | some e => if stringsContains e "endpoint with name" then none else some e
  | none => none

/-- DockerBackend.startContainer: issues ContainerStart. -/
def startContainer (cli : RunClient) (cid : String) : Option Err :=
  cli.containerStart cid

/-- Loop body of DockerBackend.RunExporter. ctx is the index of the first
select-check at which ctx.Done() is observed (none = never); check counts the
checks performed so far. Each iteration first checks cancellation (returning
nil), then executes the current step and advances; a step error is returned
at once. -/
def runLoop (cli : RunClient) (promNetwork : String) (ctx : Option Nat) (check : Nat)
    (exporter : Exporter) (step : Step) (exporterCID : String) : RunResult :=
  if (match ctx with | none => false | some k => k ≤ check) then
    { err := none, calls := [] }
  else
    match step with
    | .finished => { err := none, calls := [] }
    | .pullImage =>
      let c := Call.imagePull exporter.image
      match pullImage cli exporter.image with
      | some e => { err := some e, calls := [c] }
      | none =>
        let r := runLoop cli promNetwork ctx (check + 1) exporter .create exporterCID
        { err := r.err, calls := c :: r.calls }
    | .create =>
      let c := Call.containerCreate (mkContainerConfig exporter) (mkHostConfig exporter)
        exporter.name
      match createContainer cli exporter with
      | .error e => { err := some e, calls := [c] }
      | .ok cid =>
        let r := runLoop cli promNetwork ctx (check + 1) exporter .connect cid
        { err := r.err, calls := c :: r.calls }
    | .connect =>
      let c := Call.networkConnect promNetwork exporterCID
      match connectToNetwork cli promNetwork exporterCID with
      | some e => { err := some e, calls := [c] }
      | none =>
        let r := runLoop cli promNetwork ctx (check + 1) exporter .start exporterCID
        { err := r.err, calls := c :: r.calls }
    | .start =>
      let c := Call.containerStart exporterCID
      match startContainer cli exporterCID with
      | some e => { err := some e, calls := [c] }
      | none =>
        let r := runLoop cli promNetwork ctx (check + 1) exporter .finished exporterCID
        { err := r.err, calls := c :: r.calls }
termination_by stepRank step
decreasing_by all_goals simp [stepRank]

/-- DockerBackend.RunExporter: drives the state machine from stepPullImage
with an empty exporter container id. -/
def RunExporter (cli : RunClient) (promNetwork : String) (ctx : Option Nat)
    (exporter : Exporter) : RunResult :=
  runLoop cli promNetwork ctx 0 exporter .pullImage ""

/-- Go strings.TrimLeft(s, "/"): removes every leading slash. -/
def stringsTrimLeftSlash (s : String) : String :=
  String.mk (s.toList.dropWhile (fun c => c == '/'))

/-- getExporterName from backend.go: fmt.Sprintf("/exporter.%s.%s",
exporterType, strings.TrimLeft(tname, "/")). -/
def getExporterName (exporterType tname : String) : String :=
  "/exporter." ++ exporterType ++ "." ++ stringsTrimLeftSlash tname

/-- Name formula following the specification's words (section 4.3, step 3):
name = "exporter." + catalogKeyOrType + "." + trimLeadingSlash(taskName).
Kept separate from getExporterName so the two can be compared. -/
def specExporterName (exporterType tname : String) : String :=
  "exporter." ++ exporterType ++ "." ++ stringsTrimLeftSlash tname

/-- models.ExporterFinder.FindMatchingExporters: an association list of
(catalog key, partially filled exporter) in iteration order, plus the
non-fatal per-entry errors. -/
abbrev Finder := TaskToExport → List (String × Exporter) × List Err

/-- DockerBackend.resolveExporters: queries the finder, logs its non-fatal
errors, and names every match from its catalog key and the task name. -/
def resolveExporters (finder : Finder) (t : TaskToExport) : List Exporter :=
  ((finder t).1).map (fun pm => { pm.2 with name := getExporterName pm.1 t.name })

/-- types.Container as returned by ContainerList. -/
structure Container where
  id : String
  names : List String
  labels : List (String × String)
  deriving Repr, DecidableEq

/-- TaskToExport built by FindMissingExporters from a listed container.
Go indexes container.Names[0]; the docker list API always reports at least
one name, so the total model defaults to "" on an empty list. -/
def taskToExportOf (c : Container) : TaskToExport :=
  { id := c.id, name := c.names.headD "", labels := c.labels }

/-- Name index built by FindMissingExporters: every name of every listed
container (the Go code stores them in a map used only for membership). -/
def allContainerNames (containers : List Container) : List String :=
  containers.foldl (fun acc c => acc ++ c.names) []

/-- DockerBackend.FindMissingExporters: given the ContainerList response,
skips sidecars (containers carrying LABEL_EXPORTED_NAME), resolves exporters
for every other container and keeps those whose computed name is not already
taken by a listed container. Returns (missing, error) as in Go. -/
def FindMissingExporters (finder : Finder) (listResult : Except Err (List Container)) :
    List Exporter × Option Err :=
  match listResult with
  | .error e => ([], some e)
  | .ok containers =>
    let containerNames := allContainerNames containers
    let missing := containers.foldl (fun missing c =>
      if hasLabelKey c.labels LABEL_EXPORTED_NAME then missing
      else
        missing ++ (resolveExporters finder (taskToExportOf c)).filter
          (fun ex => !(containerNames.contains ex.name))) []
    (missing, none)

/-- Errors produced by the teardown functions. The stillRunning constructor
records the sidecar container id and the monitored container id, as the
newErrExportedTaskStillRunning call site passes both; the constructor itself
lives in a file outside src/ and is modelled from the spec's "still running"
error and the call site. -/
inductive DockerErr
  | msg (m : Err)
  | stillRunning (exporterID exportedID : String)
  deriving Repr, DecidableEq

/-- Typed-error check used by CleanupExporters to recognise the
still-running refusal. -/
def IsErrExportedTaskStillRunning : DockerErr → Bool
  | .stillRunning _ _ => true
  | .msg _ => false

/-- Outcome of ContainerInspect: success with the running flag, the
distinguished not-found condition, or another error. -/
inductive InspectResult
  | ok (running : Bool)
  | notFound
  | fail (msg : Err)

/-- One runtime call issued by the teardown functions, with its arguments. -/
inductive TCall
  | containerList
  | containerInspect (cid : String)
  | networkDisconnect (network : String) (cid : String) (force : Bool)
  | containerStop (cid : String)
  | containerRemove (cid : String) (force : Bool)
  deriving Repr, DecidableEq

/-- Responses of the docker client for the calls the teardown functions
issue. containerList is the LABEL_EXPORTED_ID-filtered listing used by
CleanupExporters; containerListByName the name-filtered one used by
CleanupExporter. -/
structure TeardownClient where
  containerList : Except Err (List Container)
  containerListByName : String → Except Err (List Container)
  containerInspect : String → InspectResult
  networkDisconnect : String → String → Bool → Option Err
  containerStop : String → Option Err
  containerRemove : String → Bool → Option Err

/-- Tail of DockerBackend.stopExporter after the still-running guard:
disconnect from the prometheus network, stop, then remove (force forwarded
to the removal); the first error aborts. -/
def stopExporterProceed (cli : TeardownClient) (promNetwork : String)
    (exporterCID : String) (force : Bool) : Option DockerErr × List TCall :=
  let dcall := TCall.networkDisconnect promNetwork exporterCID force
  match cli.networkDisconnect promNetwork exporterCID force with
  | some e => (some (.msg e), [dcall])
  | none =>
    match cli.containerStop exporterCID with
    | some e => (some (.msg e), [dcall, TCall.containerStop exporterCID])
    | none =>
      match cli.containerRemove exporterCID force with
      | some e => (some (.msg e),
          [dcall, TCall.containerStop exporterCID, TCall.containerRemove exporterCID force])
      | none => (none,
          [dcall, TCall.containerStop exporterCID, TCall.containerRemove exporterCID force])

/-- DockerBackend.stopExporter: inspects the monitored container named by the
sidecar's LABEL_EXPORTED_ID label; a non-not-found inspect error aborts; a
running monitored container without force is refused with the still-running
error; otherwise the sidecar is disconnected, stopped and removed. -/
def stopExporter (cli : TeardownClient) (promNetwork : String) (exporter : Container)
    (force : Bool) : Option DockerErr × List TCall :=
  let exporterCID := exporter.id
  let exportedCID := labelValue exporter.labels LABEL_EXPORTED_ID
  let icall := TCall.containerInspect exportedCID
  match cli.containerInspect exportedCID with
  | .fail m => (some (.msg m), [icall])
  | .ok running =>
    if running && !force then (some (.stillRunning exporterCID exportedCID), [icall])
    else
      let r := stopExporterProceed cli promNetwork exporterCID force
      (r.1, icall :: r.2)
  | .notFound =>
    let r := stopExporterProceed cli promNetwork exporterCID force
    (r.1, icall :: r.2)

/-- DockerBackend.CleanupExporter: lists containers by exact name; zero
matches and multiple matches are errors, a unique match is stopped. -/
def CleanupExporter (cli : TeardownClient) (promNetwork : String) (exporterName : String)
    (force : Bool) : Option DockerErr × List TCall :=
  match cli.containerListByName exporterName with
  | .error e => (some (.msg e), [TCall.containerList])
  | .ok cs =>
    match cs with
    | [] => (some (.msg "exporter not found"), [TCall.containerList])
    | [c] =>
      let r := stopExporter cli promNetwork c force
      (r.1, TCall.containerList :: r.2)
    | _ => (some (.msg "more than one container match the provided exporter name"),
        [TCall.containerList])

/-- Aggregate result CleanupExporters builds from the collected refusal
names: the "failed to cleanup" error listing them, or nil when none. -/
def mkCleanupErr (failed : List String) : Option DockerErr :=
  if failed.length > 0 then
    some (.msg ("failed to cleanup " ++ String.intercalate ", " failed))
  else none

/-- Loop of DockerBackend.CleanupExporters over the listed sidecars: a
still-running refusal records the sidecar name and continues, any other
error aborts at once; at the end a non-empty refusal list becomes the
aggregate "failed to cleanup" error. -/
def cleanupLoop (cli : TeardownClient) (promNetwork : String) (force : Bool) :
    List Container → List String → Option DockerErr × List TCall
  | [], failed => (mkCleanupErr failed, [])
  | c :: rest, failed =>
    let r := stopExporter cli promNetwork c force
    match r.1 with
    | some e =>
      if IsErrExportedTaskStillRunning e then
        let r2 := cleanupLoop cli promNetwork force rest (failed ++ [c.names.headD ""])
        (r2.1, r.2 ++ r2.2)
      else (some e, r.2)
    | none =>
      let r2 := cleanupLoop cli promNetwork force rest failed
      (r2.1, r.2 ++ r2.2)

/-- DockerBackend.CleanupExporters: lists every container carrying
LABEL_EXPORTED_ID and applies the cleanup loop to them. -/
def CleanupExporters (cli : TeardownClient) (promNetwork : String) (force : Bool) :
    Option DockerErr × List TCall :=
  match cli.containerList with
  | .error e => (some (.msg e), [TCall.containerList])
  | .ok exporters =>
    let r := cleanupLoop cli promNetwork force exporters []
    (r.1, TCall.containerList :: r.2)

/-- Go uint64 decrement with wraparound: times - 1 over 64-bit unsigned. -/
def uintPred (x : Nat) : Nat := (x + (2 ^ 64 - 1)) % 2 ^ 64

/-- Result of the retry helper: the returned error, the number of times the
operation was invoked, and the number of sleeps performed. -/
structure RetryResult where
  err : Option Err
  calls : Nat
  sleeps : Nat
  deriving Repr, DecidableEq

/-- Self-call of the retry helper, reached only with a non-zero counter (the
Go code guards the recursion with times != 0): calls f, on failure decrements
the counter — exact for a positive uint64 — and, while it is non-zero, sleeps
and recurses, returning the last error. The fallible operation is a function
of the attempt index; the sleep interval only produces a counted sleep. The
zero-counter equation is never reached from retry. -/
def retryCount (f : Nat → Option Err) : Nat → Nat → RetryResult
  | 0, _ => { err := none, calls := 0, sleeps := 0 }
  | w + 1, att =>
    match f att with
    | none => { err := none, calls := 1, sleeps := 0 }
    | some e =>
      if w ≠ 0 then
        { err := (retryCount f w (att + 1)).err
          calls := (retryCount f w (att + 1)).calls + 1
          sleeps := (retryCount f w (att + 1)).sleeps + 1 }
      else { err := some e, calls := 1, sleeps := 0 }

/-- Retry helper from the event listener: calls f; on failure decrements the
unsigned counter — with uint64 wraparound, so a zero counter becomes
2 ^ 64 - 1 — and, while it is non-zero, sleeps and recurses (the self-call,
whose counter is positive and in range, is retryCount). -/
def retry (times : Nat) (f : Nat → Option Err) (att : Nat) : RetryResult :=
  match f att with
  | none => { err := none, calls := 1, sleeps := 0 }
  | some e =>
    if uintPred times ≠ 0 then
      { err := (retryCount f (uintPred times) (att + 1)).err
        calls := (retryCount f (uintPred times) (att + 1)).calls + 1
        sleeps := (retryCount f (uintPred times) (att + 1)).sleeps + 1 }
    else { err := some e, calls := 1, sleeps := 0 }

/-- types.ContainerJSON as read by the legacy event handler. -/
structure ContainerJSON where
  id : String
  name : String
  labels : List (String × String)
  deriving Repr, DecidableEq

/-- Outcome of ContainerInspect in the legacy event handler: the inspected
container, the distinguished not-found condition, or another error. -/
inductive InspectJSON
  | found (c : ContainerJSON)
  | notFound
  | fail (msg : Err)

/-- Failure of models.FromPredefinedExporter: the distinguished
predefined-exporter-not-found condition or another error. -/
inductive PredefErr
  | notFound
  | other (msg : Err)
  deriving Repr, DecidableEq

/-- Modelled from the spec: the exporter catalog (models.FindMatchingExporter
and models.FromPredefinedExporter live outside src/). findMatching returns
the name of the predefined exporter matching a container name, or "" when
none matches; fromPredefined looks a predefined exporter up by name. -/
structure Catalog where
  findMatching : String → String
  fromPredefined : String → String → ContainerJSON → Except PredefErr Exporter

/-- Modelled from the spec: the explicit exporter-type override label read by
the legacy event handler (the LABEL_EXPORTER_NAME constant is defined outside
src/); its exact value is irrelevant to the claims. -/
def LABEL_EXPORTER_NAME : String := "autoexporter.exporter"

/-- readLabel from the event listener: renders the label's raw value (the Go
map yields "" for an absent key) as a template against the container. The
template engine (html/template) is external and passed in as render. -/
def readLabel (render : String → ContainerJSON → Except Err String)
    (c : ContainerJSON) (label : String) : Except Err String :=
  render (labelValue c.labels label) c

/-- Observable outcome of handleContainerStart: the returned error, the
exporter handed to RunExporter (none when none was started), whether the
catalog pattern matcher was consulted, and whether the
predefined-exporter-not-found warning was logged. -/
structure StartHandling where
  err : Option Err
  launched : Option Exporter
  patternMatched : Bool
  warnedNotFound : Bool
  deriving Repr, DecidableEq

/-- handleContainerStart from the event listener, after the initial
ContainerInspect (whose outcome is passed in): a not-found inspection is a
benign skip; the explicit label is rendered, an empty result falls back to
the catalog pattern matcher; an empty exporter name aborts quietly; the
predefined exporter is then looked up, not-found being logged as a warning
and swallowed; on success the exporter is run. -/
def handleContainerStart (render : String → ContainerJSON → Except Err String)
    (catalog : Catalog) (promNetwrk : String) (inspected : InspectJSON) : StartHandling :=
  match inspected with
  | .notFound => ⟨none, none, false, false⟩
  | .fail m => ⟨some m, none, false, false⟩
  | .found container =>
    match readLabel render container LABEL_EXPORTER_NAME with
    | .error e => ⟨some e, none, false, false⟩
    | .ok fromLabel =>
      let patternMatched := fromLabel == ""
      let exporterName := if fromLabel == "" then catalog.findMatching container.name
        else fromLabel
      if exporterName == "" then ⟨none, none, patternMatched, false⟩
      else
        match catalog.fromPredefined exporterName promNetwrk container with
        | .error .notFound => ⟨none, none, patternMatched, true⟩
        | .error (.other m) => ⟨some m, none, patternMatched, false⟩
        | .ok exporter => ⟨none, some exporter, patternMatched, false⟩

/-! Theorems. -/

/-- C2: for every exporter, when no runtime call fails and the context is
never cancelled, RunExporter issues exactly one image pull, then exactly one
container create whose network mode is "container:" followed by the monitored
task's id, with the task's id and name recorded as labels and an on-failure
restart policy of at most 10 retries, then exactly one network connect, then
exactly one container start, in exactly that order with no step skipped, and
returns no error. -/
theorem claim_C2 (cli : RunClient) (promNetwork : String) (exporter : Exporter) (cid : String)
    (h1 : cli.imagePull exporter.image = none)
    (h2 : cli.containerCreate (mkContainerConfig exporter) (mkHostConfig exporter)
      exporter.name = Except.ok cid)
    (h3 : cli.networkConnect promNetwork cid = none)
    (h4 : cli.containerStart cid = none) :
    RunExporter cli promNetwork none exporter =
      { err := none
        calls := [Call.imagePull exporter.image,
          Call.containerCreate
            { user := "1000", cmd := exporter.cmd, image := exporter.image
              env := exporter.envVars
              labels := [(LABEL_EXPORTED_ID, exporter.exportedTask.id),
                         (LABEL_EXPORTED_NAME, exporter.exportedTask.name)] }
            { networkMode := "container:" ++ exporter.exportedTask.id
              restartPolicy := { name := "on-failure", maximumRetryCount := 10 } }
            exporter.name,
          Call.networkConnect promNetwork cid,
          Call.containerStart cid] } := by
  simp only [mkContainerConfig, mkHostConfig] at h2
  simp [RunExporter, runLoop, pullImage, createContainer, connectToNetwork, startContainer,
    h1, h2, h3, h4, mkContainerConfig, mkHostConfig]

/-- Docker client on which every runtime call succeeds. -/
def cliAllOk : RunClient :=
  { imagePull := fun _ => none
    containerCreate := fun _ _ _ => Except.ok "9d234f"
    networkConnect := fun _ _ => none
    containerStart := fun _ => none }

/-- Exporter taken from the specification's success-path example. -/
def exSpec : Exporter :=
  { name := "/exporter.redis.foo", exporterType := "redis", image := "x/y:latest"
    cmd := ["-a"], envVars := ["F=1"]
    exportedTask := { id := "C1", name := "/foo", labels := [] } }

/-- Witness for C2 at the specification's example inputs. -/
theorem claim_C2_witness :
    RunExporter cliAllOk "testnet" none exSpec =
      { err := none
        calls := [Call.imagePull "x/y:latest",
          Call.containerCreate
            { user := "1000", cmd := ["-a"], image := "x/y:latest", env := ["F=1"]
              labels := [(LABEL_EXPORTED_ID, "C1"), (LABEL_EXPORTED_NAME, "/foo")] }
            { networkMode := "container:C1"
              restartPolicy := { name := "on-failure", maximumRetryCount := 10 } }
            "/exporter.redis.foo",
          Call.networkConnect "testnet" "9d234f",
          Call.containerStart "9d234f"] } := by
  have h := claim_C2 cliAllOk "testnet" exSpec "9d234f" rfl rfl rfl rfl
  simpa [exSpec, mkContainerConfig, mkHostConfig] using h

/-- C1: for every exporter and every context cancelled at select-check k
before the pipeline reaches Finished (k at most 4), on a client whose calls
succeed, RunExporter returns no error and has issued exactly the k calls made
before the cancellation was observed, none afterwards; in particular, when
cancellation is observed before the Connect step (k at most 2), neither the
network-connect call nor the container-start call is ever issued. -/
theorem claim_C1 (cli : RunClient) (promNetwork : String) (exporter : Exporter) (k : Nat)
    (h1 : ∀ img, cli.imagePull img = none)
    (h2 : ∀ cfg hc n, ∃ cid, cli.containerCreate cfg hc n = Except.ok cid)
    (h3 : ∀ nw c, cli.networkConnect nw c = none)
    (h4 : ∀ c, cli.containerStart c = none)
    (hk : k ≤ 4) :
    (RunExporter cli promNetwork (some k) exporter).err = none ∧
    (RunExporter cli promNetwork (some k) exporter).calls.length = k ∧
    (k ≤ 2 → ∀ c ∈ (RunExporter cli promNetwork (some k) exporter).calls,
      (∀ nw cid, c ≠ Call.networkConnect nw cid) ∧ (∀ cid, c ≠ Call.containerStart cid)) := by
  obtain ⟨cid, hcid⟩ := h2 (mkContainerConfig exporter) (mkHostConfig exporter) exporter.name
  simp only [mkContainerConfig, mkHostConfig] at hcid
  interval_cases k <;>
    simp [RunExporter, runLoop, pullImage, createContainer, connectToNetwork, startContainer,
      h1, hcid, h3, h4, mkContainerConfig, mkHostConfig]

/-- Witness for C1: cancellation observed at the third select-check (before
the Connect step) on an all-success client. -/
theorem claim_C1_witness :
    (RunExporter cliAllOk "testnet" (some 2) exSpec).err = none ∧
    (RunExporter cliAllOk "testnet" (some 2) exSpec).calls.length = 2 ∧
    (2 ≤ 2 → ∀ c ∈ (RunExporter cliAllOk "testnet" (some 2) exSpec).calls,
      (∀ nw cid, c ≠ Call.networkConnect nw cid) ∧ (∀ cid, c ≠ Call.containerStart cid)) :=
  claim_C1 cliAllOk "testnet" exSpec 2 (fun _ => rfl)
    (fun _ _ _ => ⟨"9d234f", rfl⟩) (fun _ _ => rfl) (fun _ => rfl) (by norm_num)

/-- C7: when the pipeline reaches the Connect step and the network-connect
call fails, an error whose message contains "endpoint with name" is treated
as success and the pipeline continues to Start, while any other connect error
aborts the pipeline with that error surfaced to the caller unchanged. -/
theorem claim_C7 (cli : RunClient) (promNetwork : String) (exporter : Exporter)
    (cid : String) (e : Err)
    (h1 : cli.imagePull exporter.image = none)
    (h2 : cli.containerCreate (mkContainerConfig exporter) (mkHostConfig exporter)
      exporter.name = Except.ok cid)
    (h5 : cli.networkConnect promNetwork cid = some e) :
    (stringsContains e "endpoint with name" = true →
      RunExporter cli promNetwork none exporter =
        { err := cli.containerStart cid
          calls := [Call.imagePull exporter.image,
            Call.containerCreate (mkContainerConfig exporter) (mkHostConfig exporter)
              exporter.name,
            Call.networkConnect promNetwork cid,
            Call.containerStart cid] }) ∧
    (stringsContains e "endpoint with name" = false →
      RunExporter cli promNetwork none exporter =
        { err := some e
          calls := [Call.imagePull exporter.image,
            Call.containerCreate (mkContainerConfig exporter) (mkHostConfig exporter)
              exporter.name,
            Call.networkConnect promNetwork cid] }) := by
  have h2b := h2
  simp only [mkContainerConfig, mkHostConfig] at h2b
  constructor
  · intro hc
    cases h6 : cli.containerStart cid <;>
      simp [RunExporter, runLoop, pullImage, createContainer, connectToNetwork,
        startContainer, h1, h2b, h5, h6, hc, mkContainerConfig, mkHostConfig]
  · intro hc
    simp [RunExporter, runLoop, pullImage, createContainer, connectToNetwork,
      startContainer, h1, h2b, h5, hc, mkContainerConfig, mkHostConfig]

/-- Docker client whose network-connect call fails with an
already-an-endpoint message and whose other calls succeed. -/
def cliEndpointConflict : RunClient :=
  { imagePull := fun _ => none
    containerCreate := fun _ _ _ => Except.ok "9d234f"
    networkConnect := fun _ _ => some "network testnet already has an endpoint with name x"
    containerStart := fun _ => none }

/-- Witness for C7: the swallowed endpoint-conflict connect error lets the
pipeline continue to Start and finish without error. -/
theorem claim_C7_witness :
    RunExporter cliEndpointConflict "testnet" none exSpec =
      { err := cliEndpointConflict.containerStart "9d234f"
        calls := [Call.imagePull exSpec.image,
          Call.containerCreate (mkContainerConfig exSpec) (mkHostConfig exSpec) exSpec.name,
          Call.networkConnect "testnet" "9d234f",
          Call.containerStart "9d234f"] } :=
  (claim_C7 cliEndpointConflict "testnet" exSpec "9d234f"
    "network testnet already has an endpoint with name x" rfl rfl rfl).1 (by decide)

/-- C3 counterexample: the computed sidecar name carries a leading slash, so
it differs from the specification's formula
"exporter." + type + "." + trimLeadingSlash(name) at type "redis" and task
name "/foo". -/
theorem claim_C3_counterexample :
    getExporterName "redis" "/foo" = "/exporter.redis.foo" ∧
    specExporterName "redis" "/foo" = "exporter.redis.foo" ∧
    getExporterName "redis" "/foo" ≠ specExporterName "redis" "/foo" := by
  refine ⟨by decide, by decide, by decide⟩

/-- C3 as amended: for every exporter type (or catalog key) and every task
name, the computed sidecar name equals a slash followed by the
specification's formula "exporter." + type + "." + (name with leading slashes
trimmed) — the slash matching the runtime's reported container names — and
the resolver names every resolved exporter by exactly that function of its
catalog key and the task's name (so identical inputs always yield identical
names). -/
theorem claim_C3_amended :
    (∀ exporterType tname,
      getExporterName exporterType tname = "/" ++ specExporterName exporterType tname) ∧
    (∀ (finder : Finder) (t : TaskToExport),
      (resolveExporters finder t).map Exporter.name =
        ((finder t).1).map (fun pm => "/" ++ specExporterName pm.1 t.name)) := by
  have base : ("/exporter." : String) = "/" ++ "exporter." := rfl
  have hname : ∀ exporterType tname,
      getExporterName exporterType tname = "/" ++ specExporterName exporterType tname := by
    intro exporterType tname
    show "/exporter." ++ exporterType ++ "." ++ stringsTrimLeftSlash tname
      = "/" ++ ("exporter." ++ exporterType ++ "." ++ stringsTrimLeftSlash tname)
    conv_rhs => rw [← String.append_assoc, ← String.append_assoc, ← String.append_assoc,
      ← base]
  refine ⟨hname, fun finder t => ?_⟩
  simp [resolveExporters, hname]

/-- Helper for C6: a fold that skips flagged items and appends the rest
equals the accumulator followed by the concatenation over unflagged items. -/
theorem foldl_skip_append {α β : Type} (skip : β → Bool) (g : β → List α) :
    ∀ (cs : List β) (acc : List α),
      cs.foldl (fun m c => if skip c then m else m ++ g c) acc
        = acc ++ cs.flatMap (fun c => if skip c then [] else g c) := by
  intro cs
  induction cs with
  | nil => intro acc; simp
  | cons c rest ih =>
    intro acc
    by_cases h : skip c <;> simp [h, ih, List.append_assoc]

/-- C6: on a successful listing, missing-exporter detection reports an
exporter exactly when some listed container that does not carry the sidecar
bookkeeping label resolves to it and its computed name is not among the names
of any currently listed container; in particular containers carrying the
label contribute nothing. -/
theorem claim_C6 (finder : Finder) (containers : List Container) (e : Exporter) :
    e ∈ (FindMissingExporters finder (Except.ok containers)).1 ↔
      ∃ c ∈ containers, hasLabelKey c.labels LABEL_EXPORTED_NAME = false ∧
        e ∈ resolveExporters finder (taskToExportOf c) ∧
        (allContainerNames containers).contains e.name = false := by
  show e ∈ containers.foldl _ [] ↔ _
  rw [foldl_skip_append (fun c => hasLabelKey c.labels LABEL_EXPORTED_NAME)
    (fun c => (resolveExporters finder (taskToExportOf c)).filter
      (fun ex => !((allContainerNames containers).contains ex.name)))]
  simp only [List.nil_append, List.mem_flatMap]
  constructor
  · rintro ⟨c, hc, hmem⟩
    by_cases h : hasLabelKey c.labels LABEL_EXPORTED_NAME
    · simp [h] at hmem
    · simp only [h, if_neg, Bool.false_eq_true, if_false, List.mem_filter,
        Bool.not_eq_true'] at hmem
      exact ⟨c, hc, by simpa using h, hmem.1, hmem.2⟩
  · rintro ⟨c, hc, hlab, hres, hname⟩
    have hname2 : e.name ∉ allContainerNames containers := by simpa using hname
    refine ⟨c, hc, ?_⟩
    simp [hlab, List.mem_filter, hres, hname2]

/-- Names (first docker name) of the sidecars whose stopExporter outcome is
the still-running refusal, in list order; the bulk cleanup collects exactly
these. -/
def refusedNames (cli : TeardownClient) (promNetwork : String) (force : Bool)
    (cs : List Container) : List String :=
  (cs.filter (fun c =>
    match (stopExporter cli promNetwork c force).1 with
    | some e => IsErrExportedTaskStillRunning e
    | none => false)).map (fun c => c.names.headD "")

/-- C4: in a single teardown whose inspection of the monitored container
succeeds and reports it running, force = false fails with the still-running
error carrying both the sidecar id and the monitored container id and issues
no disconnect, stop or remove call; force = true instead proceeds to
disconnect the sidecar from the monitoring network, stop it and remove it
with force forwarded to the removal; an inspection reporting not-found
proceeds the same way for either force value. -/
theorem claim_C4 (cli : TeardownClient) (promNetwork : String) (exporter : Container) :
    (cli.containerInspect (labelValue exporter.labels LABEL_EXPORTED_ID) =
        InspectResult.ok true →
      stopExporter cli promNetwork exporter false =
        (some (DockerErr.stillRunning exporter.id
            (labelValue exporter.labels LABEL_EXPORTED_ID)),
          [TCall.containerInspect (labelValue exporter.labels LABEL_EXPORTED_ID)])) ∧
    (cli.containerInspect (labelValue exporter.labels LABEL_EXPORTED_ID) =
        InspectResult.ok true →
      cli.networkDisconnect promNetwork exporter.id true = none →
      cli.containerStop exporter.id = none →
      cli.containerRemove exporter.id true = none →
      stopExporter cli promNetwork exporter true =
        (none,
          [TCall.containerInspect (labelValue exporter.labels LABEL_EXPORTED_ID),
            TCall.networkDisconnect promNetwork exporter.id true,
            TCall.containerStop exporter.id,
            TCall.containerRemove exporter.id true])) ∧
    (∀ force, cli.containerInspect (labelValue exporter.labels LABEL_EXPORTED_ID) =
        InspectResult.notFound →
      cli.networkDisconnect promNetwork exporter.id force = none →
      cli.containerStop exporter.id = none →
      cli.containerRemove exporter.id force = none →
      stopExporter cli promNetwork exporter force =
        (none,
          [TCall.containerInspect (labelValue exporter.labels LABEL_EXPORTED_ID),
            TCall.networkDisconnect promNetwork exporter.id force,
            TCall.containerStop exporter.id,
            TCall.containerRemove exporter.id force])) := by
  refine ⟨fun h1 => ?_, fun h1 h2 h3 h4 => ?_, fun force h1 h2 h3 h4 => ?_⟩
  · simp [stopExporter, h1]
  · simp [stopExporter, stopExporterProceed, h1, h2, h3, h4]
  · simp [stopExporter, stopExporterProceed, h1, h2, h3, h4]

/-- Sidecar container used in the teardown witnesses. -/
def sidecarW : Container :=
  { id := "exporter-cid", names := ["/exporter.redis.foo"]
    labels := [(LABEL_EXPORTED_ID, "exported-task-cid")] }

/-- Teardown client whose inspection reports the monitored container as
running. -/
def cliRunning : TeardownClient :=
  { containerList := Except.ok [sidecarW]
    containerListByName := fun _ => Except.ok [sidecarW]
    containerInspect := fun _ => InspectResult.ok true
    networkDisconnect := fun _ _ _ => none
    containerStop := fun _ => none
    containerRemove := fun _ _ => none }

/-- Witness for C4: with the monitored container running and force = false,
the sidecar is refused with the still-running error naming both ids and only
the inspect call was issued. -/
theorem claim_C4_witness :
    stopExporter cliRunning "testnet" sidecarW false =
      (some (DockerErr.stillRunning "exporter-cid" "exported-task-cid"),
        [TCall.containerInspect "exported-task-cid"]) := by
  have h := (claim_C4 cliRunning "testnet" sidecarW).1 rfl
  simpa [sidecarW, labelValue, LABEL_EXPORTED_ID] using h

/-- Helper for C5: when every sidecar in the list is either stopped cleanly
or refused as still running, the cleanup loop processes the whole list,
concatenates every trace and aggregates the initial and newly refused
names. -/
theorem cleanupLoop_no_hard (cli : TeardownClient) (promNetwork : String) (force : Bool) :
    ∀ (cs : List Container) (failed : List String),
      (∀ c ∈ cs, ∀ e, (stopExporter cli promNetwork c force).1 = some e →
        IsErrExportedTaskStillRunning e = true) →
      cleanupLoop cli promNetwork force cs failed =
        (mkCleanupErr (failed ++ refusedNames cli promNetwork force cs),
          cs.flatMap (fun c => (stopExporter cli promNetwork c force).2)) := by
  intro cs
  induction cs with
  | nil => intro failed _; simp [cleanupLoop, refusedNames]
  | cons c rest ih =>
    intro failed hok
    have hc := hok c (by simp)
    cases hse : (stopExporter cli promNetwork c force).1 with
    | none =>
      have hrest := ih failed (fun c2 hc2 => hok c2 (by simp [hc2]))
      simp [cleanupLoop, hse, hrest, refusedNames, List.filter_cons]
    | some e =>
      have hee : IsErrExportedTaskStillRunning e = true := hc e hse
      have hrest := ih (failed ++ [c.names.headD ""])
        (fun c2 hc2 => hok c2 (by simp [hc2]))
      simp only [cleanupLoop, hse, hee, if_true]
      rw [hrest]
      simp [refusedNames, List.filter_cons, hse, hee, List.append_assoc]

/-- Helper for C5: a stopExporter outcome that is an error other than the
still-running refusal aborts the cleanup loop at that sidecar, dropping the
remainder of the list. -/
theorem cleanupLoop_abort (cli : TeardownClient) (promNetwork : String) (force : Bool)
    (c : Container) (post : List Container) (e : DockerErr)
    (he : (stopExporter cli promNetwork c force).1 = some e)
    (hhard : IsErrExportedTaskStillRunning e = false) :
    ∀ (pre : List Container) (failed : List String),
      (∀ c2 ∈ pre, ∀ e2, (stopExporter cli promNetwork c2 force).1 = some e2 →
        IsErrExportedTaskStillRunning e2 = true) →
      cleanupLoop cli promNetwork force (pre ++ c :: post) failed =
        (some e,
          pre.flatMap (fun c2 => (stopExporter cli promNetwork c2 force).2) ++
            (stopExporter cli promNetwork c force).2) := by
  intro pre
  induction pre with
  | nil =>
    intro failed _
    simp [cleanupLoop, he, hhard]
  | cons p rest ih =>
    intro failed hok
    have hp := hok p (by simp)
    cases hse : (stopExporter cli promNetwork p force).1 with
    | none =>
      have hrest := ih failed (fun c2 hc2 => hok c2 (by simp [hc2]))
      simp [cleanupLoop, hse, hrest, List.append_assoc]
    | some e2 =>
      have hee : IsErrExportedTaskStillRunning e2 = true := hp e2 hse
      have hrest := ih (failed ++ [p.names.headD ""])
        (fun c2 hc2 => hok c2 (by simp [hc2]))
      simp only [cleanupLoop, hse, hee, if_true, List.append_eq]
      rw [hrest]
      simp [List.append_assoc]

/-- C5: in a bulk teardown over the listed sidecars, when every outcome is a
clean stop or a still-running refusal, refusals do not stop processing (every
sidecar's calls are issued) and the result is the aggregate error naming
exactly the refused sidecars, or success when none was refused; and an error
other than the still-running refusal aborts the whole operation immediately,
surfacing that error and issuing no call for the remaining sidecars. -/
theorem claim_C5 (cli : TeardownClient) (promNetwork : String) (force : Bool) :
    (∀ exporters, cli.containerList = Except.ok exporters →
      (∀ c ∈ exporters, ∀ e, (stopExporter cli promNetwork c force).1 = some e →
        IsErrExportedTaskStillRunning e = true) →
      CleanupExporters cli promNetwork force =
        (mkCleanupErr (refusedNames cli promNetwork force exporters),
          TCall.containerList ::
            exporters.flatMap (fun c => (stopExporter cli promNetwork c force).2))) ∧
    (∀ pre c post e, cli.containerList = Except.ok (pre ++ c :: post) →
      (∀ c2 ∈ pre, ∀ e2, (stopExporter cli promNetwork c2 force).1 = some e2 →
        IsErrExportedTaskStillRunning e2 = true) →
      (stopExporter cli promNetwork c force).1 = some e →
      IsErrExportedTaskStillRunning e = false →
      CleanupExporters cli promNetwork force =
        (some e,
          TCall.containerList ::
            (pre.flatMap (fun c2 => (stopExporter cli promNetwork c2 force).2) ++
              (stopExporter cli promNetwork c force).2))) := by
  constructor
  · intro exporters hlist hok
    have h := cleanupLoop_no_hard cli promNetwork force exporters [] hok
    simp [CleanupExporters, hlist, h]
  · intro pre c post e hlist hok he hhard
    have h := cleanupLoop_abort cli promNetwork force c post e he hhard pre [] hok
    simp [CleanupExporters, hlist, h]

/-- Sidecar containers used in the bulk-teardown witness. -/
def sidecarA : Container :=
  { id := "A", names := ["/exporter.redis.a"], labels := [(LABEL_EXPORTED_ID, "a")] }

def sidecarB : Container :=
  { id := "B", names := ["/exporter.redis.b"], labels := [(LABEL_EXPORTED_ID, "b")] }

def sidecarC : Container :=
  { id := "C", names := ["/exporter.redis.c"], labels := [(LABEL_EXPORTED_ID, "c")] }

/-- Teardown client listing three sidecars whose monitored container "b" is
still running while "a" and "c" are gone. -/
def cliBulk : TeardownClient :=
  { containerList := Except.ok [sidecarA, sidecarB, sidecarC]
    containerListByName := fun _ => Except.ok []
    containerInspect := fun cid => if cid = "b" then InspectResult.ok true
      else InspectResult.notFound
    networkDisconnect := fun _ _ _ => none
    containerStop := fun _ => none
    containerRemove := fun _ _ => none }

/-- Witness for C5: over three sidecars with one still-running refusal and
force = false, the other two are disconnected, stopped and removed and the
aggregate error names only the refused sidecar. -/
theorem claim_C5_witness :
    CleanupExporters cliBulk "testnet" false =
      (some (DockerErr.msg "failed to cleanup /exporter.redis.b"),
        [TCall.containerList,
          TCall.containerInspect "a", TCall.networkDisconnect "testnet" "A" false,
          TCall.containerStop "A", TCall.containerRemove "A" false,
          TCall.containerInspect "b",
          TCall.containerInspect "c", TCall.networkDisconnect "testnet" "C" false,
          TCall.containerStop "C", TCall.containerRemove "C" false]) := by
  have hok : ∀ c ∈ [sidecarA, sidecarB, sidecarC], ∀ e,
      (stopExporter cliBulk "testnet" c false).1 = some e →
      IsErrExportedTaskStillRunning e = true := by
    intro c hc e he
    fin_cases hc
    · simp [stopExporter, stopExporterProceed, cliBulk, sidecarA, labelValue,
        LABEL_EXPORTED_ID] at he
    · simp [stopExporter, stopExporterProceed, cliBulk, sidecarB, labelValue,
        LABEL_EXPORTED_ID] at he
      simp [← he, IsErrExportedTaskStillRunning]
    · simp [stopExporter, stopExporterProceed, cliBulk, sidecarC, labelValue,
        LABEL_EXPORTED_ID] at he
  have h := (claim_C5 cliBulk "testnet" false).1 [sidecarA, sidecarB, sidecarC] rfl hok
  rw [h]
  decide

/-- Wrapped uint64 decrement of a value in range: an ordinary decrement. -/
theorem uintPred_eq_sub (times : Nat) (h1 : 1 ≤ times) (h2 : times < 2 ^ 64) :
    uintPred times = times - 1 := by
  unfold uintPred
  have h3 : times + (2 ^ 64 - 1) = (times - 1) + 2 ^ 64 := by omega
  rw [h3, Nat.add_mod_right, Nat.mod_eq_of_lt (by omega)]

/-- Wrapped uint64 decrement of zero: wraps around to 2 ^ 64 - 1. -/
theorem uintPred_zero : uintPred 0 = 2 ^ 64 - 1 := by
  unfold uintPred
  rw [Nat.zero_add, Nat.mod_eq_of_lt (by omega)]

/-- Helper for C9: when every attempt in the window fails, the retry
self-call makes exactly w calls, sleeps exactly between consecutive calls,
and returns the error of the last call. -/
theorem retryCount_all_fail (f : Nat → Option Err) :
    ∀ (w att : Nat), 1 ≤ w →
      (∀ k, att ≤ k → k < att + w → f k ≠ none) →
      retryCount f w att = { err := f (att + w - 1), calls := w, sleeps := w - 1 } := by
  intro w
  induction w with
  | zero => intro att h1 _; omega
  | succ v ih =>
    intro att _ hf
    cases hfa : f att with
    | none => exact absurd hfa (hf att le_rfl (by omega))
    | some e =>
      rcases Nat.eq_zero_or_pos v with hv | hv
      · subst hv
        have harg : att + 1 - 1 = att := by omega
        rw [harg, hfa]
        simp [retryCount, hfa]
      · have hrec := ih (att + 1) hv (fun k hk1 hk2 => hf k (by omega) (by omega))
        have e1 : att + 1 + v - 1 = att + (v + 1) - 1 := by omega
        have e2 : v - 1 + 1 = v + 1 - 1 := by omega
        simp only [retryCount, hfa]
        rw [if_pos (show ¬v = 0 by omega), hrec]
        dsimp only
        rw [e1, e2]

/-- Helper for C9: when the first j attempts fail and attempt j succeeds
(j within the counter), the retry self-call stops right there with a nil
error after j + 1 calls and j sleeps. -/
theorem retryCount_first_success (f : Nat → Option Err) :
    ∀ (j w att : Nat), j < w →
      (∀ k, att ≤ k → k < att + j → f k ≠ none) → f (att + j) = none →
      retryCount f w att = { err := none, calls := j + 1, sleeps := j } := by
  intro j
  induction j with
  | zero =>
    intro w att hj _ hsucc
    obtain ⟨v, rfl⟩ : ∃ v, w = v + 1 := ⟨w - 1, by omega⟩
    simp only [retryCount]
    rw [show f att = none from by simpa using hsucc]
  | succ jj ih =>
    intro w att hj hf hsucc
    obtain ⟨v, rfl⟩ : ∃ v, w = v + 1 := ⟨w - 1, by omega⟩
    cases hfa : f att with
    | none => exact absurd hfa (hf att le_rfl (by omega))
    | some e =>
      have hrec := ih v (att + 1) (by omega)
        (fun k hk1 hk2 => hf k (by omega) (by omega))
        (by have h : att + 1 + jj = att + (jj + 1) := by omega
            rw [h]; exact hsucc)
      simp only [retryCount, hfa]
      rw [if_pos (show ¬v = 0 by omega), hrec]

/-- Helper for C9: the retry self-call makes at least one and at most w
calls, with exactly one fewer sleeps than calls. -/
theorem retryCount_calls (f : Nat → Option Err) :
    ∀ (w att : Nat), 1 ≤ w →
      1 ≤ (retryCount f w att).calls ∧ (retryCount f w att).calls ≤ w ∧
      (retryCount f w att).sleeps = (retryCount f w att).calls - 1 := by
  intro w
  induction w with
  | zero => intro att h1; omega
  | succ v ih =>
    intro att _
    cases hfa : f att with
    | none => simp [retryCount, hfa]
    | some e =>
      rcases Nat.eq_zero_or_pos v with hv | hv
      · subst hv; simp [retryCount, hfa]
      · have hrec := ih (att + 1) hv
        simp only [retryCount, hfa]
        rw [if_pos (show ¬v = 0 by omega)]
        dsimp only
        omega

/-- C9: for every fallible operation and every positive uint64 attempt bound,
the retry helper invokes the operation at most the bound many times with one
sleep between consecutive invocations (and none after the last), returns nil
as soon as an invocation succeeds making no further attempts, and when every
permitted invocation fails it makes exactly the bound many attempts and
returns the last invocation's error. -/
theorem claim_C9 (times : Nat) (f : Nat → Option Err)
    (h1 : 1 ≤ times) (h2 : times < 2 ^ 64) :
    (1 ≤ (retry times f 0).calls ∧ (retry times f 0).calls ≤ times ∧
      (retry times f 0).sleeps = (retry times f 0).calls - 1) ∧
    (∀ j, j < times → (∀ k, k < j → f k ≠ none) → f j = none →
      retry times f 0 = { err := none, calls := j + 1, sleeps := j }) ∧
    ((∀ k, k < times → f k ≠ none) →
      retry times f 0 = { err := f (times - 1), calls := times, sleeps := times - 1 }) := by
  have hup : uintPred times = times - 1 := uintPred_eq_sub times h1 h2
  refine ⟨?_, ?_, ?_⟩
  · cases hfa : f 0 with
    | none =>
      have h : retry times f 0 = { err := none, calls := 1, sleeps := 0 } := by
        simp [retry, hfa]
      rw [h]
      dsimp only
      omega
    | some e =>
      by_cases ht1 : times = 1
      · subst ht1
        have h : retry 1 f 0 = { err := some e, calls := 1, sleeps := 0 } := by
          simp [retry, hfa, hup]
        rw [h]
        dsimp only
        omega
      · have hpos : ¬ uintPred times = 0 := by omega
        have hrec := retryCount_calls f (uintPred times) (0 + 1) (by omega)
        simp only [retry, hfa]
        rw [if_pos hpos]
        dsimp only
        omega
  · intro j hj hbefore hsucc
    cases j with
    | zero => simp [retry, show f 0 = none from hsucc]
    | succ jj =>
      have hfa : ∃ e, f 0 = some e := by
        cases hf0 : f 0 with
        | none => exact absurd hf0 (hbefore 0 (by omega))
        | some e => exact ⟨e, rfl⟩
      obtain ⟨e, hfa⟩ := hfa
      have hpos : ¬ uintPred times = 0 := by omega
      have hrec := retryCount_first_success f jj (uintPred times) (0 + 1) (by omega)
        (fun k hk1 hk2 => hbefore k (by omega))
        (by have h : 0 + 1 + jj = jj + 1 := by omega
            rw [h]; exact hsucc)
      simp only [retry, hfa]
      rw [if_pos hpos, hrec]
  · intro hfail
    have hfa : ∃ e, f 0 = some e := by
      cases hf0 : f 0 with
      | none => exact absurd hf0 (hfail 0 (by omega))
      | some e => exact ⟨e, rfl⟩
    obtain ⟨e, hfa⟩ := hfa
    by_cases ht1 : times = 1
    · subst ht1
      have h0 : (1 : Nat) - 1 = 0 := rfl
      rw [h0, hfa]
      simp [retry, hfa, hup]
    · have hpos : ¬ uintPred times = 0 := by omega
      have hrec := retryCount_all_fail f (uintPred times) (0 + 1) (by omega)
        (fun k hk1 hk2 => hfail k (by omega))
      have e1 : 0 + 1 + uintPred times - 1 = times - 1 := by omega
      have e2 : uintPred times + 1 = times := by omega
      have e3 : uintPred times - 1 + 1 = times - 1 := by omega
      simp only [retry, hfa]
      rw [if_pos hpos, hrec]
      dsimp only
      rw [e1, e2, e3]

/-- Operation failing only on its first attempt, used in the C9 witness. -/
def fRetryW : Nat → Option Err := fun k => if k = 0 then some "boom" else none

/-- Witness for C9: with bound 3 and an operation failing once then
succeeding, retry returns nil after exactly two calls and one sleep. -/
theorem claim_C9_witness :
    retry 3 fRetryW 0 = { err := none, calls := 2, sleeps := 1 } :=
  (claim_C9 3 fRetryW (by norm_num) (by norm_num)).2.1 1 (by norm_num)
    (fun k hk => by interval_cases k; simp [fRetryW]) (by simp [fRetryW])

/-- C10: the retry helper is bounded only for a positive attempt bound: with
bound 0 and an operation that always fails, the uint64 counter wraps on
decrement (0 - 1 becomes 2 ^ 64 - 1), so the helper re-invokes the operation
for 2 ^ 64 total attempts — instead of returning after zero or one — and
returns the last attempt's error. -/
theorem claim_C10 (f : Nat → Option Err) (hf : ∀ k, f k ≠ none) :
    retry 0 f 0 =
      { err := f (2 ^ 64 - 1), calls := 2 ^ 64, sleeps := 2 ^ 64 - 1 } ∧
    ¬ (retry 0 f 0).calls ≤ 1 := by
  have hfa : ∃ e, f 0 = some e := by
    cases hf0 : f 0 with
    | none => exact absurd hf0 (hf 0)
    | some e => exact ⟨e, rfl⟩
  obtain ⟨e, hfa⟩ := hfa
  have hu : uintPred 0 = 2 ^ 64 - 1 := uintPred_zero
  have hpos : ¬ uintPred 0 = 0 := by rw [hu]; omega
  have hrec := retryCount_all_fail f (uintPred 0) (0 + 1)
    (by rw [hu]; omega) (fun k hk1 hk2 => hf k)
  have e1 : 0 + 1 + uintPred 0 - 1 = 2 ^ 64 - 1 := by rw [hu]; omega
  have e2 : uintPred 0 + 1 = 2 ^ 64 := by rw [hu]; omega
  have e3 : uintPred 0 - 1 + 1 = 2 ^ 64 - 1 := by rw [hu]; omega
  have hmain : retry 0 f 0 =
      { err := f (2 ^ 64 - 1), calls := 2 ^ 64, sleeps := 2 ^ 64 - 1 } := by
    simp only [retry, hfa]
    rw [if_pos hpos, hrec]
    dsimp only
    rw [e1, e2, e3]
  refine ⟨hmain, ?_⟩
  rw [hmain]
  dsimp only
  omega

/-- Witness for C10: the always-failing operation at bound 0 is re-invoked
2 ^ 64 times. -/
theorem claim_C10_witness :
    retry 0 (fun _ => some "boom") 0 =
      { err := some "boom", calls := 2 ^ 64, sleeps := 2 ^ 64 - 1 } ∧
    ¬ (retry 0 (fun _ => some "boom") 0).calls ≤ 1 :=
  claim_C10 (fun _ => some "boom") (fun _ h => Option.noConfusion h)

/-- Modelled from the spec: the html/template engine restricted to literal
label values — a template without directives renders to itself. Used to
instantiate the render parameter on concrete inputs. -/
def renderLit : String → ContainerJSON → Except Err String :=
  fun tpl _ => Except.ok tpl

/-- Exporter produced by the concrete catalog below. -/
def exRedis : Exporter :=
  { name := "", exporterType := "redis", image := "oliver006/redis_exporter:latest"
    cmd := [], envVars := [], exportedTask := { id := "", name := "", labels := [] } }

/-- Concrete catalog whose pattern matcher always answers "redis" and whose
lookup knows only the "redis" predefined exporter. -/
def catalogRedis : Catalog :=
  { findMatching := fun _ => "redis"
    fromPredefined := fun name _ _ =>
      if name = "redis" then Except.ok exRedis else Except.error PredefErr.notFound }

/-- Monitored container carrying the explicit exporter-type label with an
empty value. -/
def cEmptyLabel : ContainerJSON :=
  { id := "cid0", name := "/redis", labels := [(LABEL_EXPORTER_NAME, "")] }

/-- C8 counterexample: a task whose labels contain the explicit exporter-type
label with a value rendering to the empty string is not resolved from that
label — the handler falls through to catalog pattern matching (and launches
the catalog's match without reporting any error). -/
theorem claim_C8_counterexample :
    hasLabelKey cEmptyLabel.labels LABEL_EXPORTER_NAME = true ∧
    (handleContainerStart renderLit catalogRedis "testnet"
      (InspectJSON.found cEmptyLabel)).patternMatched = true ∧
    (handleContainerStart renderLit catalogRedis "testnet"
      (InspectJSON.found cEmptyLabel)).launched = some exRedis ∧
    (handleContainerStart renderLit catalogRedis "testnet"
      (InspectJSON.found cEmptyLabel)).err = none := by
  refine ⟨by decide, by decide, by decide, by decide⟩

/-- C8 as amended: for every monitored task whose explicit exporter-type
label renders to a non-empty string, the handler uses that rendered string as
the sole exporter type, never consulting the catalog pattern matcher; a
rendering failure is reported as an error with no exporter produced; a
lookup answering not-found produces no exporter and is reported as the
logged warning rather than a returned error; any other lookup failure is
returned as an error with no exporter produced. -/
theorem claim_C8_amended (render : String → ContainerJSON → Except Err String)
    (catalog : Catalog) (promNetwrk : String) (c : ContainerJSON) :
    (∀ e, render (labelValue c.labels LABEL_EXPORTER_NAME) c = Except.error e →
      handleContainerStart render catalog promNetwrk (InspectJSON.found c) =
        { err := some e, launched := none, patternMatched := false
          warnedNotFound := false }) ∧
    (∀ s, render (labelValue c.labels LABEL_EXPORTER_NAME) c = Except.ok s → s ≠ "" →
      (handleContainerStart render catalog promNetwrk
          (InspectJSON.found c)).patternMatched = false ∧
      (∀ ex, catalog.fromPredefined s promNetwrk c = Except.ok ex →
        handleContainerStart render catalog promNetwrk (InspectJSON.found c) =
          { err := none, launched := some ex, patternMatched := false
            warnedNotFound := false }) ∧
      (catalog.fromPredefined s promNetwrk c = Except.error PredefErr.notFound →
        handleContainerStart render catalog promNetwrk (InspectJSON.found c) =
          { err := none, launched := none, patternMatched := false
            warnedNotFound := true }) ∧
      (∀ m, catalog.fromPredefined s promNetwrk c = Except.error (PredefErr.other m) →
        handleContainerStart render catalog promNetwrk (InspectJSON.found c) =
          { err := some m, launched := none, patternMatched := false
            warnedNotFound := false })) := by
  constructor
  · intro e he
    simp [handleContainerStart, readLabel, he]
  · intro s hs hne
    have hbe : (s == "") = false := by
      simp [hne]
    refine ⟨?_, fun ex hex => ?_, fun hnf => ?_, fun m hm => ?_⟩
    · simp only [handleContainerStart, readLabel, hs]
      cases hx : catalog.fromPredefined s promNetwrk c with
      | ok ex2 => simp [hbe, hx]
      | error pe => cases pe <;> simp [hbe, hx]
    · simp [handleContainerStart, readLabel, hs, hbe, hex]
    · simp [handleContainerStart, readLabel, hs, hbe, hnf]
    · simp [handleContainerStart, readLabel, hs, hbe, hm]

/-- Container carrying the explicit exporter-type label with the literal
value "redis", used in the C8 witness. -/
def cRedisLabel : ContainerJSON :=
  { id := "cid1", name := "/app1", labels := [(LABEL_EXPORTER_NAME, "redis")] }

/-- Witness for C8 as amended: a label rendering to "redis" resolves through
the lookup alone and launches the predefined redis exporter without
consulting the pattern matcher. -/
theorem claim_C8_witness :
    handleContainerStart renderLit catalogRedis "testnet"
      (InspectJSON.found cRedisLabel) =
      { err := none, launched := some exRedis, patternMatched := false
        warnedNotFound := false } :=
  ((claim_C8_amended renderLit catalogRedis "testnet" cRedisLabel).2 "redis" rfl
    (by decide)).2.1 exRedis rfl

end PromAuto
